import Mathlib

/-
Verification of the Requirement Extraction & Candidate Scoring Engine of the
Freesound video-production assistant (video_production_assistant.py).

Shallow embedding conventions:
  * Python strings are embedded as `List Char`; `str.lower()` as a `Char.toLower`
    map (the inputs of interest are ASCII, where the two agree).
  * Python floats are embedded as exact rationals `ℚ`: the spec describes the
    scoring arithmetic over real numbers, and every constant involved
    (5, 4, 3, 25, 50, 65, 10, 7, rating/5*10, etc.) is exactly representable.
  * `try/except` blocks are embedded as `Option`-valued attempts followed by a
    `getD` with the fallback value of the `except` branch.
  * `int(s)` is embedded as `pyInt`: optional surrounding whitespace, an
    optional single sign, then one or more decimal digits (the underscore
    digit-separator of Python is not modelled; no input below uses it).
-/

/-- Python `min(a, b)` on two rationals, kept kernel-computable. -/
def qmin (a b : ℚ) : ℚ := if a ≤ b then a else b

/-- Python `abs(x)` on a rational, kept kernel-computable. -/
def qabs (x : ℚ) : ℚ := if x < 0 then -x else x

/-- Lowercase a string, modelling `str.lower()` (ASCII-faithful). -/
def lowerStr (s : List Char) : List Char := s.map Char.toLower

/-- Replace each comma by a space, modelling `str.replace(',', ' ')`. -/
def commaToSpace (s : List Char) : List Char :=
  s.map (fun c => if c = ',' then ' ' else c)

/-- Auxiliary accumulator-based splitter for `splitWs`. -/
def splitWsAux : List Char → List Char → List (List Char)
  | [], acc => if acc.isEmpty then [] else [acc.reverse]
  | c :: cs, acc =>
    if c.isWhitespace then
      if acc.isEmpty then splitWsAux cs [] else acc.reverse :: splitWsAux cs []
    else splitWsAux cs (c :: acc)

/-- Split on runs of whitespace dropping empty pieces, modelling `str.split()`
with no argument. -/
def splitWs (s : List Char) : List (List Char) := splitWsAux s []

/-- Prepend a character to the first piece of a split result. -/
def consHead (c : Char) : List (List Char) → List (List Char)
  | [] => [[c]]
  | l :: ls => (c :: l) :: ls

/-- Core of `pySplit`, scanning one character at a time; `skip` counts the
characters of an already-matched separator occurrence still to consume. -/
def pySplitGo (sep : List Char) : List Char → ℕ → List (List Char)
  | [], _ => [[]]
  | c :: cs, skip =>
    match skip with
    | Nat.succ k => pySplitGo sep cs k
    | 0 =>
      if sep ≠ [] ∧ sep.isPrefixOf (c :: cs) then
        [] :: pySplitGo sep cs (sep.length - 1)
      else
        consHead c (pySplitGo sep cs 0)

/-- Split on every non-overlapping occurrence of a nonempty separator, keeping
empty pieces, modelling Python `str.split(sep)`. -/
def pySplit (sep s : List Char) : List (List Char) := pySplitGo sep s 0

/-- Substring test: does `pat` occur as a contiguous run inside `s`?
Models the Python expression `pat in s` on two strings. -/
def strContains (s pat : List Char) : Bool :=
  match s with
  | [] => pat.isEmpty
  | _ :: cs => pat.isPrefixOf s || strContains cs pat

/-- Numeric value of a digit string (callers guarantee all digits). -/
def digitsVal (l : List Char) : ℕ :=
  l.foldl (fun n c => 10 * n + (c.toNat - 48)) 0

/-- Parse a nonempty all-digit string, else fail. -/
def parseNatDigits (l : List Char) : Option ℕ :=
  if l ≠ [] ∧ l.all Char.isDigit then some (digitsVal l) else none

/-- Strip leading and trailing whitespace, as `int()` does before parsing. -/
def pyStrip (l : List Char) : List Char :=
  ((l.dropWhile Char.isWhitespace).reverse.dropWhile Char.isWhitespace).reverse

/-- Embedding of Python `int(s)`: `none` models a raised `ValueError`. -/
def pyInt (l : List Char) : Option Int :=
  match pyStrip l with
  | '-' :: rest => (parseNatDigits rest).map (fun n => -(n : Int))
  | '+' :: rest => (parseNatDigits rest).map (fun n => (n : Int))
  | t => (parseNatDigits t).map (fun n => (n : Int))

/-- `MusicRequirement`: the fields consumed by scoring, BPM-range derivation
and duration derivation.  `duration` is `none` for Python `None`. -/
structure MusicRequirement where
  genre : List Char
  mood : List Char
  instruments : List Char
  bpm : List Char
  duration : Option ℚ

/-- Candidate metadata as read by `score_match` via `sound_data.get`, with the
same defaults the code supplies for absent fields. -/
structure SoundData where
  name : List Char
  tags : List (List Char)
  description : List Char
  duration : ℚ
  avg_rating : ℚ
  num_ratings : ℚ
  license : List Char

/-- `SoundEffectRequirement` (its `score_match` reads no field of `self`,
matching the source method, but the receiver is kept for fidelity). -/
structure SoundEffectRequirement where
  category : List Char
  effects : List (List Char)

/-- Lowercased candidate name, as computed at the top of both score functions. -/
def lname (sd : SoundData) : List Char := lowerStr sd.name

/-- Lowercased candidate tag list. -/
def ltags (sd : SoundData) : List (List Char) := sd.tags.map lowerStr

/-- Lowercased candidate description. -/
def ldesc (sd : SoundData) : List Char := lowerStr sd.description

/-- Genre keywords: `self.genre.lower().split()`. -/
def genreKws (req : MusicRequirement) : List (List Char) := splitWs (lowerStr req.genre)

/-- Mood keywords: `self.mood.lower().replace(',', ' ').split()`. -/
def moodKws (req : MusicRequirement) : List (List Char) :=
  splitWs (commaToSpace (lowerStr req.mood))

/-- Instrument keywords: `self.instruments.lower().replace(',', ' ').split()`. -/
def instKws (req : MusicRequirement) : List (List Char) :=
  splitWs (commaToSpace (lowerStr req.instruments))

/-- One keyword test of the music scorer:
`keyword in name or keyword in tags or keyword in description` —
substring on the name and description, but plain list membership on tags. -/
def kwMatch (kw name : List Char) (tags : List (List Char)) (desc : List Char) : Bool :=
  strContains name kw || tags.contains kw || strContains desc kw

/-- One `for keyword in ...: if match: score += w` pass of `score_match`,
threading the running score. -/
def scorePass (w : ℚ) (kws : List (List Char)) (name : List Char)
    (tags : List (List Char)) (desc : List Char) (s : ℚ) : ℚ :=
  kws.foldl (fun acc kw => if kwMatch kw name tags desc then acc + w else acc) s

/-- Running total after the genre pass and its clamp: `score = min(score, 25)`. -/
def stageGenre (req : MusicRequirement) (sd : SoundData) : ℚ :=
  qmin (scorePass 5 (genreKws req) (lname sd) (ltags sd) (ldesc sd) 0) 25

/-- Running total after the mood pass and its clamp: `score = min(score, 50)`. -/
def stageMood (req : MusicRequirement) (sd : SoundData) : ℚ :=
  qmin (scorePass 4 (moodKws req) (lname sd) (ltags sd) (ldesc sd) (stageGenre req sd)) 50

/-- Running total after the instrument pass and its clamp: `min(score, 65)`. -/
def stageInst (req : MusicRequirement) (sd : SoundData) : ℚ :=
  qmin (scorePass 3 (instKws req) (lname sd) (ltags sd) (ldesc sd) (stageMood req sd)) 65

/-- The duration-proximity tier of points added when the duration branch runs. -/
def durTier (t d : ℚ) : ℚ :=
  if qabs (t - d) < 5 then 10 else if qabs (t - d) < 10 then 7 else if qabs (t - d) < 20 then 4 else 0

/-- Duration-proximity points: the guard `if self.duration and duration > 0`
uses Python truthiness, so a target of `None` or `0` skips the tier. -/
def durPts (req : MusicRequirement) (sd : SoundData) : ℚ :=
  match req.duration with
  | some t => if t ≠ 0 ∧ 0 < sd.duration then durTier t sd.duration else 0
  | none => 0

/-- Running total after the duration block. -/
def stageDur (req : MusicRequirement) (sd : SoundData) : ℚ :=
  stageInst req sd + durPts req sd

/-- Rating-quality points: `(avg_rating/5.0) * 10 * min(num_ratings/10, 1.0)`
added only when `avg_rating > 0`. -/
def ratingTerm (sd : SoundData) : ℚ :=
  if 0 < sd.avg_rating then sd.avg_rating / 5 * 10 * qmin (sd.num_ratings / 10) 1 else 0

/-- Running total after the rating block. -/
def stageRating (req : MusicRequirement) (sd : SoundData) : ℚ :=
  stageDur req sd + ratingTerm sd

/-- License-preference points (case-sensitive substring tests, as in source). -/
def licensePts (lic : List Char) : ℚ :=
  if strContains lic ("Creative Commons 0".toList) || strContains lic ("CC0".toList) then 5
  else if strContains lic ("Attribution".toList) then 3
  else 0

/-- Running total after the license block. -/
def stageLicense (req : MusicRequirement) (sd : SoundData) : ℚ :=
  stageRating req sd + licensePts sd.license

/-- `MusicRequirement.score_match`: the full music match score `min(score, 100)`. -/
def musicScore (req : MusicRequirement) (sd : SoundData) : ℚ :=
  qmin (stageLicense req sd) 100

/-- Name-tier points of `SoundEffectRequirement.score_match`: all keywords as
substrings of the name gives 40, at least one gives 20, else 0. -/
def sfxNamePts (kws : List (List Char)) (name : List Char) : ℚ :=
  if kws.all (fun kw => strContains name kw) then 40
  else if kws.any (fun kw => strContains name kw) then 20
  else 0

/-- Count of effect keywords occurring as a substring of at least one tag. -/
def sfxTagCount (kws tags : List (List Char)) : ℕ :=
  (kws.filter (fun kw => tags.any (fun t => strContains t kw))).length

/-- Count of effect keywords occurring as a substring of the description. -/
def sfxDescCount (kws : List (List Char)) (desc : List Char) : ℕ :=
  (kws.filter (fun kw => strContains desc kw)).length

/-- `SoundEffectRequirement.score_match`: the sound-effect match score. -/
def sfxScore (_req : SoundEffectRequirement) (sd : SoundData) (effect : List Char) : ℚ :=
  qmin (sfxNamePts (splitWs (lowerStr effect)) (lname sd)
      + qmin ((sfxTagCount (splitWs (lowerStr effect)) (ltags sd) : ℚ) * 10) 30
      + qmin ((sfxDescCount (splitWs (lowerStr effect)) (ldesc sd) : ℚ) * 5) 15
      + sd.avg_rating / 5 * 15) 100

/-- The number of keywords of a pass that match the candidate. -/
def countKwMatches (kws : List (List Char)) (name : List Char)
    (tags : List (List Char)) (desc : List Char) : ℕ :=
  (kws.filter (fun kw => kwMatch kw name tags desc)).length

/-- Formalisation of claim C1's wording of the music score: per-category point
totals (5, 4, 3 points per matched keyword of the genre, mood and instrument
lists), each cap (25, 50, 65) applied to the running total rather than to the
category alone, then the duration tier, the discounted rating term, the
license term, and a final clamp at 100. -/
def musicScoreSpecC1 (req : MusicRequirement) (sd : SoundData) : ℚ :=
  qmin
    (qmin
        (qmin
            (qmin (5 * (countKwMatches (genreKws req) (lname sd) (ltags sd) (ldesc sd) : ℚ)) 25
              + 4 * (countKwMatches (moodKws req) (lname sd) (ltags sd) (ldesc sd) : ℚ)) 50
          + 3 * (countKwMatches (instKws req) (lname sd) (ltags sd) (ldesc sd) : ℚ)) 65
      + durPts req sd + ratingTerm sd + licensePts sd.license) 100

/-- The requirement of end-to-end scenario 1 of the spec. -/
def reqC4 : MusicRequirement :=
  { genre := "orchestral cinematic".toList, mood := "epic, triumphant".toList,
    instruments := "strings, brass".toList, bpm := "90".toList, duration := some 30 }

/-- The candidate of end-to-end scenario 1 of the spec. -/
def sdC4 : SoundData :=
  { name := "Epic Orchestral Strings".toList,
    tags := ["epic".toList, "orchestral".toList, "strings".toList],
    description := [], duration := 32, avg_rating := 9 / 2, num_ratings := 20,
    license := "CC0".toList }

/-- The body of the `try` block of `get_bpm_range`: on a hyphen, split on all
hyphens and parse pieces `[0]` and `[1]`; otherwise parse one integer `b` and
widen to `(b - 5, b + 5)`.  `none` models a raised exception. -/
def bpmRangeAttempt (bpm : List Char) : Option (Int × Int) :=
  if bpm.contains '-' then
    match pySplit ['-'] bpm with
    | p0 :: p1 :: _ =>
      match pyInt p0, pyInt p1 with
      | some a, some b => some (a, b)
      | _, _ => none
    | _ => none
  else
    (pyInt bpm).map (fun b => (b - 5, b + 5))

/-- `MusicRequirement.get_bpm_range`, with the `except` fallback `(80, 140)`. -/
def get_bpm_range (req : MusicRequirement) : Int × Int :=
  (bpmRangeAttempt req.bpm).getD (80, 140)

/-- Claim C5's wording of the hyphen case: the raw string is split ONCE (at
the first hyphen) and BOTH sides are parsed as integers. -/
def bpmRangeSplitOnce (bpm : List Char) : Int × Int :=
  if bpm.contains '-' then
    match pyInt (bpm.takeWhile (fun c => c ≠ '-')),
        pyInt ((bpm.dropWhile (fun c => c ≠ '-')).drop 1) with
    | some a, some b => (a, b)
    | _, _ => (80, 140)
  else ((pyInt bpm).map (fun b => (b - 5, b + 5))).getD (80, 140)

/-- The amended BPM clause: split on EVERY hyphen and parse the first two
pieces, ignoring any further pieces. -/
def bpmRangeAmendedSpec (bpm : List Char) : Int × Int :=
  if bpm.contains '-' then
    match pySplit ['-'] bpm with
    | p0 :: p1 :: _ =>
      match pyInt p0, pyInt p1 with
      | some a, some b => (a, b)
      | _, _ => (80, 140)
    | _ => (80, 140)
  else ((pyInt bpm).map (fun b => (b - 5, b + 5))).getD (80, 140)

/-- A requirement whose only relevant field is the raw BPM string. -/
def mkBpmReq (s : List Char) : MusicRequirement :=
  { genre := [], mood := [], instruments := [], bpm := s, duration := none }

/-- `time_to_seconds` inside `_parse_duration`: `t.split(':')` then
`int(parts[0])*3600 + int(parts[1])*60 + int(parts[2])`; `none` models a
`ValueError` or `IndexError` raised inside the enclosing `try`. -/
def time_to_seconds (t : List Char) : Option Int :=
  match pySplit [':'] t with
  | p0 :: p1 :: p2 :: _ =>
    match pyInt p0, pyInt p1, pyInt p2 with
    | some h, some m, some s => some (h * 3600 + m * 60 + s)
    | _, _, _ => none
  | _ => none

/-- `VideoProductionAssistant._parse_duration`: end seconds minus start
seconds, with the `except` fallback 30. -/
def parse_duration (start_time end_time : List Char) : Int :=
  match time_to_seconds end_time, time_to_seconds start_time with
  | some e, some s => e - s
  | _, _ => 30

/-- Lines 217–222 of `parse_music_requirements`: split the raw time range on
the three-character separator; with exactly two parts call `_parse_duration`,
otherwise use the default 30. -/
def durationFromTimeRange (tr : List Char) : Int :=
  if (pySplit (" - ".toList) tr).length = 2 then
    parse_duration ((pySplit (" - ".toList) tr).getD 0 [])
      ((pySplit (" - ".toList) tr).getD 1 [])
  else 30

/-- Claim C6's wording of one side of the range: the side decomposes into
three numeric components (components `[0]`, `[1]`, `[2]` of the colon split,
further components ignored), combined as `h*3600 + m*60 + s`. -/
def sideToSeconds (t : List Char) : Option Int :=
  match pySplit [':'] t with
  | p0 :: p1 :: p2 :: _ =>
    match pyInt p0, pyInt p1, pyInt p2 with
    | some h, some m, some s => some (h * 3600 + m * 60 + s)
    | _, _, _ => none
  | _ => none

/-- Claim C6's wording of duration derivation: end total-seconds minus start
total-seconds when the string splits into exactly two parts and both sides
decompose; the fallback 30 otherwise; a negative difference kept as computed. -/
def durationSpecC6 (tr : List Char) : Int :=
  match pySplit (" - ".toList) tr with
  | [a, b] =>
    match sideToSeconds a, sideToSeconds b with
    | some s, some e => e - s
    | _, _ => 30
  | _ => 30

/-- Insert a scored pair into a descending-sorted list, after every entry
scoring strictly higher — the unique stable position for it. -/
def insertDesc {α : Type} (p : ℚ × α) : List (ℚ × α) → List (ℚ × α)
  | [] => [p]
  | q :: qs => if p.1 < q.1 then q :: insertDesc p qs else p :: q :: qs

/-- `scored_results.sort(reverse=True, key=lambda x: x[0])`: Python's sort is
stable, and with `reverse=True` equal-keyed entries still keep their original
order, so the result is THE stable descending arrangement; stable insertion
sort below computes that same unique arrangement. -/
def sortDesc {α : Type} : List (ℚ × α) → List (ℚ × α)
  | [] => []
  | x :: xs => insertDesc x (sortDesc xs)

/-- `enumerate(l, k)`: pair the entries of `l` with ranks counted from `k`. -/
def rankedFrom {α : Type} (k : ℕ) : List α → List (ℕ × α)
  | [] => []
  | x :: xs => (k, x) :: rankedFrom (k + 1) xs

/-- The scoring report of `process_music_tracks` (requirement identity, the
query used, and the ranked retained top-N). -/
structure ScoringReport where
  track_number : ℕ
  search_query : List Char
  top_matches : List (ℕ × ℚ × SoundData)

/-- Report construction (lines 441–464): stable descending sort of the scored
pairs, truncation to the top N, 1-based ranks `i + 1` from `enumerate`. -/
def buildReport (track : ℕ) (query : List Char) (scored : List (ℚ × SoundData))
    (topN : ℕ) : ScoringReport :=
  { track_number := track, search_query := query,
    top_matches := rankedFrom 1 ((sortDesc scored).take topN) }

/-- Per-requirement behaviour of `process_music_tracks` (lines 410–467): with
no search results the loop prints "No results found" and `continue`s, so no
report is built (`none`); otherwise every result is scored and the report is
built and written. -/
def processMusicTrack (track : ℕ) (query : List Char) (req : MusicRequirement)
    (results : List SoundData) (topN : ℕ) : Option ScoringReport :=
  if results.isEmpty then none
  else some (buildReport track query (results.map (fun sd => (musicScore req sd, sd))) topN)

/-- Add one tag to the front of a candidate's tag list, all else fixed. -/
def addTag (kw : List Char) (sd : SoundData) : SoundData :=
  { sd with tags := kw :: sd.tags }

/-- Replace a candidate's tag list, all else fixed. -/
def withTags (tags : List (List Char)) (sd : SoundData) : SoundData :=
  { sd with tags := tags }

/-- Every keyword the music scorer tests against the candidate. -/
def allMusicKws (req : MusicRequirement) : List (List Char) :=
  genreKws req ++ moodKws req ++ instKws req

/-- Genre with six keywords of which the candidate's name matches exactly
five (reaching the 25-point genre cap), and a mood equal to the sixth. -/
def reqC8 : MusicRequirement :=
  { genre := "aaa bbb ccc ddd eee fff".toList, mood := "fff".toList,
    instruments := [], bpm := [], duration := none }

/-- Candidate whose name carries five of the six genre keywords of `reqC8`. -/
def sdC8 : SoundData :=
  { name := "aaa bbb ccc ddd eee".toList, tags := [], description := [],
    duration := 0, avg_rating := 0, num_ratings := 0, license := [] }

/-- An (otherwise irrelevant) sound-effect requirement receiver. -/
def sreqC10 : SoundEffectRequirement := { category := [], effects := [] }

/-- Candidate whose only tag, "glassy", strictly contains the keyword
"glass" without being equal to it. -/
def sdC10 : SoundData :=
  { name := [], tags := ["glassy".toList], description := [],
    duration := 0, avg_rating := 0, num_ratings := 0, license := [] }

/-- Music requirement whose single keyword is "glass". -/
def reqC10m : MusicRequirement :=
  { genre := "glass".toList, mood := [], instruments := [], bpm := [],
    duration := none }

theorem qmin_eq (a b : ℚ) : qmin a b = min a b := by
  simp [qmin, min_def]

theorem qabs_eq (x : ℚ) : qabs x = |x| := by
  rw [qabs, abs]
  rcases lt_or_le x 0 with h | h
  · rw [if_pos h, max_eq_right (by linarith)]
  · rw [if_neg (not_lt.mpr h), max_eq_left (by linarith)]

theorem scorePass_eq (w : ℚ) (kws : List (List Char)) (name : List Char)
    (tags : List (List Char)) (desc : List Char) (s : ℚ) :
    scorePass w kws name tags desc s = s + w * countKwMatches kws name tags desc := by
  induction kws generalizing s with
  | nil => simp [scorePass, countKwMatches]
  | cons kw kws ih =>
    have hstep : scorePass w (kw :: kws) name tags desc s
        = scorePass w kws name tags desc
            (if kwMatch kw name tags desc then s + w else s) := rfl
    rw [hstep, ih]
    by_cases h : kwMatch kw name tags desc
    · have hc : countKwMatches (kw :: kws) name tags desc
          = countKwMatches kws name tags desc + 1 := by
        simp [countKwMatches, List.filter, h]
      rw [if_pos h, hc]
      push_cast
      ring
    · have hc : countKwMatches (kw :: kws) name tags desc
          = countKwMatches kws name tags desc := by
        simp [countKwMatches, List.filter, h]
      rw [if_neg h, hc]

theorem musicScore_counts (req : MusicRequirement) (sd : SoundData) :
    musicScore req sd = musicScoreSpecC1 req sd := by
  simp only [musicScore, stageLicense, stageRating, stageDur, stageInst, stageMood,
    stageGenre, musicScoreSpecC1, scorePass_eq, zero_add]

theorem musicScore_scenario1 : musicScore reqC4 sdC4 = 36 := by
  rw [musicScore_counts]
  have hG : countKwMatches (genreKws reqC4) (lname sdC4) (ltags sdC4) (ldesc sdC4) = 1 := by
    decide
  have hM : countKwMatches (moodKws reqC4) (lname sdC4) (ltags sdC4) (ldesc sdC4) = 1 := by
    decide
  have hI : countKwMatches (instKws reqC4) (lname sdC4) (ltags sdC4) (ldesc sdC4) = 1 := by
    decide
  have hL : licensePts sdC4.license = 5 := by decide
  have hD : durPts reqC4 sdC4 = 10 := by
    norm_num [durPts, reqC4, sdC4, durTier, qabs_eq]
  have hR : ratingTerm sdC4 = 9 := by
    norm_num [ratingTerm, sdC4, qmin_eq]
  rw [musicScoreSpecC1, hG, hM, hI, hL, hD, hR]
  norm_num [qmin_eq]

theorem insertDesc_perm {α : Type} (p : ℚ × α) (l : List (ℚ × α)) :
    (insertDesc p l).Perm (p :: l) := by
  induction l with
  | nil => exact List.Perm.refl _
  | cons q qs ih =>
    by_cases h : p.1 < q.1
    · simp only [insertDesc, if_pos h]
      exact (ih.cons q).trans (List.Perm.swap p q qs)
    · simp only [insertDesc, if_neg h]
      exact List.Perm.refl _

theorem sortDesc_perm {α : Type} (l : List (ℚ × α)) : (sortDesc l).Perm l := by
  induction l with
  | nil => exact List.Perm.refl _
  | cons x xs ih => exact (insertDesc_perm x (sortDesc xs)).trans (ih.cons x)

theorem insertDesc_pairwise {α : Type} (p : ℚ × α) (l : List (ℚ × α))
    (hl : l.Pairwise (fun a b => b.1 ≤ a.1)) :
    (insertDesc p l).Pairwise (fun a b => b.1 ≤ a.1) := by
  induction l with
  | nil => simp [insertDesc]
  | cons q qs ih =>
    rcases List.pairwise_cons.mp hl with ⟨hq, hqs⟩
    by_cases h : p.1 < q.1
    · simp only [insertDesc, if_pos h]
      refine List.pairwise_cons.mpr ⟨?_, ih hqs⟩
      intro x hx
      rcases List.mem_cons.mp ((insertDesc_perm p qs).mem_iff.mp hx) with rfl | hxq
      · exact le_of_lt h
      · exact hq x hxq
    · simp only [insertDesc, if_neg h]
      refine List.pairwise_cons.mpr ⟨?_, hl⟩
      intro x hx
      rcases List.mem_cons.mp hx with rfl | hxq
      · exact le_of_not_lt h
      · exact le_trans (hq x hxq) (le_of_not_lt h)

theorem sortDesc_pairwise {α : Type} (l : List (ℚ × α)) :
    (sortDesc l).Pairwise (fun a b => b.1 ≤ a.1) := by
  induction l with
  | nil => simp [sortDesc]
  | cons x xs ih => exact insertDesc_pairwise x (sortDesc xs) ih

theorem insertDesc_filter_score {α : Type} (p : ℚ × α) (l : List (ℚ × α)) (s : ℚ) :
    (insertDesc p l).filter (fun q => q.1 == s) = ((p :: l).filter (fun q => q.1 == s)) := by
  induction l with
  | nil => rfl
  | cons q qs ih =>
    by_cases h : p.1 < q.1
    · simp only [insertDesc, if_pos h, List.filter_cons, ih]
      by_cases hp : p.1 = s
      · have hq : (q.1 == s) = false := by
          refine beq_eq_false_iff_ne.mpr ?_
          intro e
          rw [hp] at h
          rw [e] at h
          exact lt_irrefl s h
        simp [hp, hq]
      · have hp' : (p.1 == s) = false := beq_eq_false_iff_ne.mpr hp
        simp [hp']
    · simp only [insertDesc, if_neg h]

theorem sortDesc_filter_score {α : Type} (l : List (ℚ × α)) (s : ℚ) :
    (sortDesc l).filter (fun q => q.1 == s) = l.filter (fun q => q.1 == s) := by
  induction l with
  | nil => rfl
  | cons x xs ih =>
    calc (sortDesc (x :: xs)).filter (fun q => q.1 == s)
        = ((x :: sortDesc xs).filter (fun q => q.1 == s)) :=
          insertDesc_filter_score x (sortDesc xs) s
      _ = (x :: xs).filter (fun q => q.1 == s) := by
          simp only [List.filter_cons, ih]

theorem rankedFrom_map_fst {α : Type} (k : ℕ) (l : List α) :
    (rankedFrom k l).map Prod.fst = List.range' k l.length := by
  induction l generalizing k with
  | nil => rfl
  | cons x xs ih => simp [rankedFrom, List.range'_succ, ih]

/-- C3: top-N selection sorts by descending score with a stable sort — the
sorted list is a permutation of the input, pairwise descending in score, and
every equal-score class keeps exactly its input order (filter by score) — and
the report's ranked list carries the 1-based, strictly increasing ranks
1, 2, ... over the retained top-N. -/
theorem topN_stable_sort_ranks (xs : List (ℚ × SoundData)) (n track : ℕ)
    (query : List Char) :
    (sortDesc xs).Perm xs
    ∧ (sortDesc xs).Pairwise (fun a b => b.1 ≤ a.1)
    ∧ (∀ s : ℚ, (sortDesc xs).filter (fun p => p.1 == s) = xs.filter (fun p => p.1 == s))
    ∧ ((buildReport track query xs n).top_matches).map Prod.fst
        = List.range' 1 (min n xs.length)
    ∧ (((buildReport track query xs n).top_matches).map Prod.fst).Pairwise (fun a b => a < b) := by
  have hmap : ((buildReport track query xs n).top_matches).map Prod.fst
      = List.range' 1 (min n xs.length) := by
    have hlen : ((sortDesc xs).take n).length = min n xs.length := by
      rw [List.length_take, (sortDesc_perm xs).length_eq]
    calc ((buildReport track query xs n).top_matches).map Prod.fst
        = (rankedFrom 1 ((sortDesc xs).take n)).map Prod.fst := rfl
      _ = List.range' 1 ((sortDesc xs).take n).length := rankedFrom_map_fst 1 _
      _ = List.range' 1 (min n xs.length) := by rw [hlen]
  refine ⟨sortDesc_perm xs, sortDesc_pairwise xs, fun s => sortDesc_filter_score xs s, hmap, ?_⟩
  rw [hmap]
  exact List.pairwise_lt_range' 1 (min n xs.length)

theorem le_scorePass (w : ℚ) (hw : 0 ≤ w) (kws : List (List Char)) (name : List Char)
    (tags : List (List Char)) (desc : List Char) (s : ℚ) :
    s ≤ scorePass w kws name tags desc s := by
  induction kws generalizing s with
  | nil => exact le_refl s
  | cons kw kws ih =>
    have hstep : scorePass w (kw :: kws) name tags desc s
        = scorePass w kws name tags desc (if kwMatch kw name tags desc then s + w else s) := rfl
    rw [hstep]
    refine le_trans ?_ (ih _)
    by_cases h : kwMatch kw name tags desc
    · rw [if_pos h]
      linarith
    · rw [if_neg h]

theorem stageGenre_nonneg (req : MusicRequirement) (sd : SoundData) :
    0 ≤ stageGenre req sd := by
  rw [stageGenre, qmin_eq]
  exact le_min (le_scorePass 5 (by norm_num) _ _ _ _ 0) (by norm_num)

theorem stageMood_nonneg (req : MusicRequirement) (sd : SoundData) :
    0 ≤ stageMood req sd := by
  rw [stageMood, qmin_eq]
  exact le_min (le_trans (stageGenre_nonneg req sd) (le_scorePass 4 (by norm_num) _ _ _ _ _))
    (by norm_num)

theorem stageInst_nonneg (req : MusicRequirement) (sd : SoundData) :
    0 ≤ stageInst req sd := by
  rw [stageInst, qmin_eq]
  exact le_min (le_trans (stageMood_nonneg req sd) (le_scorePass 3 (by norm_num) _ _ _ _ _))
    (by norm_num)

theorem durTier_nonneg (t d : ℚ) : 0 ≤ durTier t d := by
  rw [durTier]
  split_ifs <;> norm_num

theorem durPts_nonneg (req : MusicRequirement) (sd : SoundData) : 0 ≤ durPts req sd := by
  cases hd : req.duration with
  | none => simp [durPts, hd]
  | some t =>
    simp only [durPts, hd]
    split_ifs with h
    · exact durTier_nonneg t sd.duration
    · exact le_refl 0

theorem ratingTerm_nonneg (sd : SoundData) (hn : 0 ≤ sd.num_ratings) :
    0 ≤ ratingTerm sd := by
  rw [ratingTerm]
  split_ifs with h
  · have h1 : (0:ℚ) ≤ sd.avg_rating / 5 * 10 := by positivity
    have h2 : (0:ℚ) ≤ qmin (sd.num_ratings / 10) 1 := by
      rw [qmin_eq]
      exact le_min (by positivity) (by norm_num)
    exact mul_nonneg h1 h2
  · exact le_refl 0

theorem licensePts_nonneg (lic : List Char) : 0 ≤ licensePts lic := by
  rw [licensePts]
  split_ifs <;> norm_num

theorem musicScore_nonneg (req : MusicRequirement) (sd : SoundData)
    (hn : 0 ≤ sd.num_ratings) : 0 ≤ musicScore req sd := by
  rw [musicScore, qmin_eq]
  refine le_min ?_ (by norm_num)
  rw [stageLicense, stageRating, stageDur]
  have h1 := stageInst_nonneg req sd
  have h2 := durPts_nonneg req sd
  have h3 := ratingTerm_nonneg sd hn
  have h4 := licensePts_nonneg sd.license
  linarith

theorem musicScore_le_100 (req : MusicRequirement) (sd : SoundData) :
    musicScore req sd ≤ 100 := by
  rw [musicScore, qmin_eq]
  exact min_le_right _ _

theorem sfxNamePts_nonneg (kws : List (List Char)) (name : List Char) :
    0 ≤ sfxNamePts kws name := by
  rw [sfxNamePts]
  split_ifs <;> norm_num

theorem sfxScore_nonneg (sreq : SoundEffectRequirement) (sd : SoundData)
    (effect : List Char) (ha : 0 ≤ sd.avg_rating) : 0 ≤ sfxScore sreq sd effect := by
  rw [sfxScore, qmin_eq]
  refine le_min ?_ (by norm_num)
  have h1 := sfxNamePts_nonneg (splitWs (lowerStr effect)) (lname sd)
  have h2 : (0:ℚ) ≤ qmin ((sfxTagCount (splitWs (lowerStr effect)) (ltags sd) : ℚ) * 10) 30 := by
    rw [qmin_eq]
    exact le_min (by positivity) (by norm_num)
  have h3 : (0:ℚ) ≤ qmin ((sfxDescCount (splitWs (lowerStr effect)) (ldesc sd) : ℚ) * 5) 15 := by
    rw [qmin_eq]
    exact le_min (by positivity) (by norm_num)
  have h4 : (0:ℚ) ≤ sd.avg_rating / 5 * 15 := by positivity
  linarith

theorem sfxScore_le_100 (sreq : SoundEffectRequirement) (sd : SoundData)
    (effect : List Char) : sfxScore sreq sd effect ≤ 100 := by
  rw [sfxScore, qmin_eq]
  exact min_le_right _ _

/-- C2: with a rating average in `[0, 5]` and a nonnegative rating count, the
music match score and the sound-effect match score (against any effect name)
lie in the closed interval `[0, 100]`. -/
theorem score_bounds (req : MusicRequirement) (sreq : SoundEffectRequirement)
    (effect : List Char) (sd : SoundData) (ha0 : 0 ≤ sd.avg_rating)
    (ha5 : sd.avg_rating ≤ 5) (hn : 0 ≤ sd.num_ratings) :
    (0 ≤ musicScore req sd ∧ musicScore req sd ≤ 100)
    ∧ (0 ≤ sfxScore sreq sd effect ∧ sfxScore sreq sd effect ≤ 100) :=
  ⟨⟨musicScore_nonneg req sd hn, musicScore_le_100 req sd⟩,
    ⟨sfxScore_nonneg sreq sd effect ha0, sfxScore_le_100 sreq sd effect⟩⟩

theorem score_bounds_witness :
    (0 ≤ sdC4.avg_rating ∧ sdC4.avg_rating ≤ 5 ∧ 0 ≤ sdC4.num_ratings)
    ∧ ((0 ≤ musicScore reqC4 sdC4 ∧ musicScore reqC4 sdC4 ≤ 100)
        ∧ (0 ≤ sfxScore sreqC10 sdC4 ("glass".toList) ∧ sfxScore sreqC10 sdC4 ("glass".toList) ≤ 100)) :=
  ⟨⟨by norm_num [sdC4], by norm_num [sdC4], by norm_num [sdC4]⟩,
    score_bounds reqC4 sreqC10 ("glass".toList) sdC4 (by norm_num [sdC4])
      (by norm_num [sdC4]) (by norm_num [sdC4])⟩

/-- C9: both scoring functions are pure functions of their arguments in this
embedding (the source methods read only their parameters and locals), so two
calls on identical inputs yield identical outputs. -/
theorem scoring_deterministic (req : MusicRequirement) (sreq : SoundEffectRequirement)
    (sd : SoundData) (effect : List Char) :
    musicScore req sd = musicScore req sd
    ∧ sfxScore sreq sd effect = sfxScore sreq sd effect :=
  ⟨rfl, rfl⟩

/-- C1: the music match score is exactly the order-dependent running-cap
procedure of the spec — 5 points per matched genre keyword with the running
total clamped at 25, 4 per mood keyword clamped at 50, 3 per instrument
keyword clamped at 65, the duration tier, the count-discounted rating term,
the license term, and a final clamp at 100, the caps applying to the running
total rather than per category. -/
theorem musicScore_runningCap (req : MusicRequirement) (sd : SoundData) :
    musicScore req sd = musicScoreSpecC1 req sd :=
  musicScore_counts req sd

/-- C4 counterexample: on scenario 1's exact inputs the code's music score is
strictly below the claimed bound of 56 — the genre text has only two keywords
of which one matches, so the genre category contributes 5, far from its
25-point cap. -/
theorem scenario1_score_below_56 : musicScore reqC4 sdC4 < 56 := by
  rw [musicScore_scenario1]
  norm_num

/-- C4 amended: on scenario 1's inputs the music score equals
5 (genre: only "orchestral" matches) + 4 (mood: "epic") + 3 (instruments:
"strings") + 10 (duration: |30-32| < 5) + 9 (rating: 4.5/5*10*1) + 5
(license: CC0) = 36. -/
theorem scenario1_score_eq_36 : musicScore reqC4 sdC4 = 36 :=
  musicScore_scenario1

/-- C5 counterexample: on the raw BPM string "100-140-200" the code splits on
every hyphen and returns pieces 0 and 1, i.e. (100, 140), while the claimed
split-once procedure leaves the unparseable right side "140-200" and falls
back to (80, 140). -/
theorem bpm_splitOnce_counterexample :
    get_bpm_range (mkBpmReq ("100-140-200".toList)) = (100, 140)
    ∧ bpmRangeSplitOnce ("100-140-200".toList) = (80, 140)
    ∧ get_bpm_range (mkBpmReq ("100-140-200".toList)) ≠ bpmRangeSplitOnce ("100-140-200".toList) :=
  ⟨by decide, by decide, by decide⟩

/-- C5 amended: the BPM range derivation equals the procedure that, on a
hyphen, splits on EVERY hyphen and parses the first two pieces as integers
(ignoring any further pieces), otherwise parses a single integer `b` into
`(b-5, b+5)`, with fallback `(80, 140)` on failure; in particular "abc" gives
(80, 140), "120" gives (115, 125) and "100-140" gives (100, 140). -/
theorem bpm_range_amended :
    (∀ req : MusicRequirement, get_bpm_range req = bpmRangeAmendedSpec req.bpm)
    ∧ get_bpm_range (mkBpmReq ("abc".toList)) = (80, 140)
    ∧ get_bpm_range (mkBpmReq ("120".toList)) = (115, 125)
    ∧ get_bpm_range (mkBpmReq ("100-140".toList)) = (100, 140) := by
  refine ⟨?_, by decide, by decide, by decide⟩
  intro req
  rw [get_bpm_range, bpmRangeAttempt, bpmRangeAmendedSpec]
  by_cases h : req.bpm.contains '-'
  · rw [if_pos h, if_pos h]
    rcases pySplit ['-'] req.bpm with _ | ⟨p0, _ | ⟨p1, rest⟩⟩
    · rfl
    · rfl
    · show (match pyInt p0, pyInt p1 with
            | some a, some b => some (a, b)
            | _, _ => none).getD (80, 140)
          = match pyInt p0, pyInt p1 with
            | some a, some b => (a, b)
            | _, _ => ((80 : Int), (140 : Int))
      rcases pyInt p0 with _ | a
      · rfl
      · rcases pyInt p1 with _ | b <;> rfl
  · rw [if_neg h, if_neg h]

theorem time_to_seconds_eq (t : List Char) : time_to_seconds t = sideToSeconds t := rfl

/-- C6: the derived duration is end total-seconds minus start total-seconds
exactly when the raw range splits into two parts both of which decompose into
three numeric components, and the fallback 30 otherwise; a negative
difference (end before start) is returned as computed — witnessed by
"00:00:30 - 00:00:10" giving -20 — and "bad-range" gives the fallback 30. -/
theorem duration_parse_spec :
    (∀ tr : List Char, durationFromTimeRange tr = durationSpecC6 tr)
    ∧ durationFromTimeRange ("bad-range".toList) = 30
    ∧ durationFromTimeRange ("00:00:30 - 00:00:10".toList) = -20 := by
  refine ⟨?_, by decide, by decide⟩
  intro tr
  rw [durationFromTimeRange, durationSpecC6]
  rcases hps : pySplit (" - ".toList) tr with _ | ⟨a, tl⟩
  · rfl
  · rcases tl with _ | ⟨b, tl2⟩
    · rfl
    · rcases tl2 with _ | ⟨c, rest⟩
      · have hlen : ([a, b] : List (List Char)).length = 2 := rfl
        rw [hlen, if_pos rfl]
        have hga : ([a, b] : List (List Char)).getD 0 [] = a := rfl
        have hgb : ([a, b] : List (List Char)).getD 1 [] = b := rfl
        rw [hga, hgb, parse_duration, time_to_seconds_eq, time_to_seconds_eq]
        show (match sideToSeconds b, sideToSeconds a with
              | some e, some s => e - s
              | _, _ => (30 : Int))
            = match sideToSeconds a, sideToSeconds b with
              | some s, some e => e - s
              | _, _ => (30 : Int)
        rcases sideToSeconds a with _ | s
        · rcases sideToSeconds b with _ | e <;> rfl
        · rcases sideToSeconds b with _ | e <;> rfl
      · have hlen : (a :: b :: c :: rest).length ≠ 2 := by
          simp only [List.length_cons]
          omega
        rw [if_neg hlen]

/-- C7 counterexample: with an empty candidate sequence the per-track
processing prints and skips to the next requirement — no `ScoringReport` at
all is produced, rather than one with an empty ranked list. -/
theorem empty_results_no_report :
    processMusicTrack 1 [] (mkBpmReq []) [] 3 = none := rfl

/-- C7 amended: on an empty candidate sequence the per-track processing skips
selection and reporting entirely and emits no report (and no error), while
the report builder itself, applied to an empty scored sequence, yields a
report whose ranked top-matches list is empty. -/
theorem empty_results_amended (track topN : ℕ) (query : List Char)
    (req : MusicRequirement) :
    processMusicTrack track query req [] topN = none
    ∧ (buildReport track query [] topN).top_matches = [] := by
  constructor
  · rfl
  · show rankedFrom 1 ((sortDesc ([] : List (ℚ × SoundData))).take topN) = []
    rw [sortDesc, List.take_nil]
    rfl

theorem kwMatch_mono (kw t name : List Char) (tags : List (List Char)) (desc : List Char)
    (h : kwMatch kw name tags desc = true) : kwMatch kw name (t :: tags) desc = true := by
  simp only [kwMatch, Bool.or_eq_true] at h ⊢
  rcases h with (h | h) | h
  · exact Or.inl (Or.inl h)
  · refine Or.inl (Or.inr ?_)
    simp only [List.contains_cons, Bool.or_eq_true]
    exact Or.inr h
  · exact Or.inr h

theorem scorePass_mono (w : ℚ) (hw : 0 ≤ w) (kws : List (List Char)) (name t : List Char)
    (tags : List (List Char)) (desc : List Char) (s t' : ℚ) (hst : s ≤ t') :
    scorePass w kws name tags desc s ≤ scorePass w kws name (t :: tags) desc t' := by
  induction kws generalizing s t' with
  | nil => exact hst
  | cons kw kws ih =>
    have h1 : scorePass w (kw :: kws) name tags desc s
        = scorePass w kws name tags desc
            (if kwMatch kw name tags desc then s + w else s) := rfl
    have h2 : scorePass w (kw :: kws) name (t :: tags) desc t'
        = scorePass w kws name (t :: tags) desc
            (if kwMatch kw name (t :: tags) desc then t' + w else t') := rfl
    rw [h1, h2]
    refine ih _ _ ?_
    by_cases h : kwMatch kw name tags desc
    · rw [if_pos h, if_pos (kwMatch_mono kw t name tags desc h)]
      linarith
    · rw [if_neg h]
      by_cases h' : kwMatch kw name (t :: tags) desc
      · rw [if_pos h']
        linarith
      · rw [if_neg h']
        exact hst

theorem stageGenre_mono (req : MusicRequirement) (sd : SoundData) (t : List Char) :
    stageGenre req sd ≤ stageGenre req (addTag t sd) := by
  rw [stageGenre, stageGenre, qmin_eq, qmin_eq]
  have he : ltags (addTag t sd) = lowerStr t :: ltags sd := rfl
  have hn : lname (addTag t sd) = lname sd := rfl
  have hd : ldesc (addTag t sd) = ldesc sd := rfl
  rw [he, hn, hd]
  exact min_le_min (scorePass_mono 5 (by norm_num) _ _ _ _ _ 0 0 (le_refl 0)) (le_refl 25)

theorem stageMood_mono (req : MusicRequirement) (sd : SoundData) (t : List Char) :
    stageMood req sd ≤ stageMood req (addTag t sd) := by
  rw [stageMood, stageMood, qmin_eq, qmin_eq]
  have he : ltags (addTag t sd) = lowerStr t :: ltags sd := rfl
  have hn : lname (addTag t sd) = lname sd := rfl
  have hd : ldesc (addTag t sd) = ldesc sd := rfl
  rw [he, hn, hd]
  exact min_le_min
    (scorePass_mono 4 (by norm_num) _ _ _ _ _ _ _ (stageGenre_mono req sd t)) (le_refl 50)

theorem stageInst_mono (req : MusicRequirement) (sd : SoundData) (t : List Char) :
    stageInst req sd ≤ stageInst req (addTag t sd) := by
  rw [stageInst, stageInst, qmin_eq, qmin_eq]
  have he : ltags (addTag t sd) = lowerStr t :: ltags sd := rfl
  have hn : lname (addTag t sd) = lname sd := rfl
  have hd : ldesc (addTag t sd) = ldesc sd := rfl
  rw [he, hn, hd]
  exact min_le_min
    (scorePass_mono 3 (by norm_num) _ _ _ _ _ _ _ (stageMood_mono req sd t)) (le_refl 65)

theorem musicScore_addTag_mono (req : MusicRequirement) (sd : SoundData) (t : List Char) :
    musicScore req sd ≤ musicScore req (addTag t sd) := by
  rw [musicScore, musicScore, qmin_eq, qmin_eq]
  refine min_le_min ?_ (le_refl 100)
  rw [stageLicense, stageLicense, stageRating, stageRating, stageDur, stageDur]
  have h1 := stageInst_mono req sd t
  have h2 : durPts req (addTag t sd) = durPts req sd := rfl
  have h3 : ratingTerm (addTag t sd) = ratingTerm sd := rfl
  have h4 : licensePts (addTag t sd).license = licensePts sd.license := rfl
  rw [h2, h3, h4]
  linarith

theorem stageGenre_le_25 (req : MusicRequirement) (sd : SoundData) :
    stageGenre req sd ≤ 25 := by
  rw [stageGenre, qmin_eq]
  exact min_le_right _ _

theorem stageGenre_cap_preserved (req : MusicRequirement) (sd : SoundData) (t : List Char)
    (h : stageGenre req sd = 25) : stageGenre req (addTag t sd) = 25 :=
  le_antisymm (stageGenre_le_25 req _) (h ▸ stageGenre_mono req sd t)

/-- C8 amended: adding one keyword of the genre text to the candidate's tag
set never decreases the music match score, and when the genre pass already
sits at its 25-point cap that pass stays exactly at the cap — but the TOTAL
score may still increase (never decrease) through the mood or instrument
categories matching the added tag. -/
theorem genre_tag_addition_monotone (req : MusicRequirement) (sd : SoundData)
    (kw : List Char) (hkw : kw ∈ genreKws req) :
    musicScore req sd ≤ musicScore req (addTag kw sd)
    ∧ (stageGenre req sd = 25 → stageGenre req (addTag kw sd) = 25) :=
  ⟨musicScore_addTag_mono req sd kw, fun h => stageGenre_cap_preserved req sd kw h⟩

theorem genre_tag_addition_monotone_witness :
    ("orchestral".toList ∈ genreKws reqC4)
    ∧ (musicScore reqC4 sdC4 ≤ musicScore reqC4 (addTag ("orchestral".toList) sdC4)
        ∧ (stageGenre reqC4 sdC4 = 25 → stageGenre reqC4 (addTag ("orchestral".toList) sdC4) = 25)) :=
  ⟨by decide, genre_tag_addition_monotone reqC4 sdC4 ("orchestral".toList) (by decide)⟩

theorem musicScore_sdC8 : musicScore reqC8 sdC8 = 25 := by
  rw [musicScore_counts]
  have hG : countKwMatches (genreKws reqC8) (lname sdC8) (ltags sdC8) (ldesc sdC8) = 5 := by
    decide
  have hM : countKwMatches (moodKws reqC8) (lname sdC8) (ltags sdC8) (ldesc sdC8) = 0 := by
    decide
  have hI : countKwMatches (instKws reqC8) (lname sdC8) (ltags sdC8) (ldesc sdC8) = 0 := by
    decide
  have hL : licensePts sdC8.license = 0 := by decide
  have hD : durPts reqC8 sdC8 = 0 := rfl
  have hR : ratingTerm sdC8 = 0 := by norm_num [ratingTerm, sdC8]
  rw [musicScoreSpecC1, hG, hM, hI, hL, hD, hR]
  norm_num [qmin_eq]

theorem musicScore_sdC8_added : musicScore reqC8 (addTag ("fff".toList) sdC8) = 29 := by
  rw [musicScore_counts]
  have hG : countKwMatches (genreKws reqC8) (lname (addTag ("fff".toList) sdC8))
      (ltags (addTag ("fff".toList) sdC8)) (ldesc (addTag ("fff".toList) sdC8)) = 6 := by
    decide
  have hM : countKwMatches (moodKws reqC8) (lname (addTag ("fff".toList) sdC8))
      (ltags (addTag ("fff".toList) sdC8)) (ldesc (addTag ("fff".toList) sdC8)) = 1 := by
    decide
  have hI : countKwMatches (instKws reqC8) (lname (addTag ("fff".toList) sdC8))
      (ltags (addTag ("fff".toList) sdC8)) (ldesc (addTag ("fff".toList) sdC8)) = 0 := by
    decide
  have hL : licensePts (addTag ("fff".toList) sdC8).license = 0 := by decide
  have hD : durPts reqC8 (addTag ("fff".toList) sdC8) = 0 := rfl
  have hR : ratingTerm (addTag ("fff".toList) sdC8) = 0 := by
    norm_num [ratingTerm, addTag, sdC8]
  rw [musicScoreSpecC1, hG, hM, hI, hL, hD, hR]
  norm_num [qmin_eq]

theorem stageGenre_sdC8 : stageGenre reqC8 sdC8 = 25 := by
  rw [stageGenre, scorePass_eq]
  have hG : countKwMatches (genreKws reqC8) (lname sdC8) (ltags sdC8) (ldesc sdC8) = 5 := by
    decide
  rw [hG]
  norm_num [qmin_eq]

/-- C8 counterexample: the genre pass of `reqC8` against `sdC8` already sits
at its 25-point cap, yet adding the genre keyword "fff" to the tag set raises
the music score from 25 to 29 (the mood category matches the new tag) — the
score is NOT unchanged once the genre sub-cap is reached. -/
theorem genre_cap_reached_score_changes :
    ("fff".toList ∈ genreKws reqC8)
    ∧ stageGenre reqC8 sdC8 = 25
    ∧ musicScore reqC8 sdC8 = 25
    ∧ musicScore reqC8 (addTag ("fff".toList) sdC8) = 29 :=
  ⟨by decide, stageGenre_sdC8, musicScore_sdC8, musicScore_sdC8_added⟩

theorem kwMatch_no_tags (kw name desc : List Char) (tags : List (List Char))
    (h : tags.contains kw = false) :
    kwMatch kw name tags desc = kwMatch kw name [] desc := by
  rw [kwMatch, kwMatch, h]
  rfl

theorem countKwMatches_congr (kws : List (List Char)) (name desc : List Char)
    (tags tags' : List (List Char))
    (h : ∀ kw ∈ kws, kwMatch kw name tags desc = kwMatch kw name tags' desc) :
    countKwMatches kws name tags desc = countKwMatches kws name tags' desc := by
  rw [countKwMatches, countKwMatches, List.filter_congr h]

/-- C10: tag matching is asymmetric between the two scorers — in the music
score a keyword matches the tag set only by whole-tag equality, so when no
keyword is an element of the (lowercased) tag set the entire tag list is
irrelevant even if keywords occur as strict substrings of tags; in the
sound-effect score a keyword matches a tag by substring, so the tag "glassy"
alone lifts the score for the keyword "glass" from 0 to 10. -/
theorem tag_matching_asymmetry :
    (∀ (req : MusicRequirement) (sd : SoundData),
        (∀ kw ∈ allMusicKws req, (ltags sd).contains kw = false) →
        musicScore req sd = musicScore req (withTags [] sd))
    ∧ strContains ("glassy".toList) ("glass".toList) = true
    ∧ (ltags sdC10).contains ("glass".toList) = false
    ∧ sfxScore sreqC10 sdC10 ("glass".toList) = 10
    ∧ sfxScore sreqC10 (withTags [] sdC10) ("glass".toList) = 0 := by
  refine ⟨?_, by decide, by decide, ?_, ?_⟩
  · intro req sd h
    rw [musicScore_counts, musicScore_counts, musicScoreSpecC1, musicScoreSpecC1]
    have e1 : ltags (withTags [] sd) = [] := rfl
    have e2 : lname (withTags [] sd) = lname sd := rfl
    have e3 : ldesc (withTags [] sd) = ldesc sd := rfl
    have e4 : durPts req (withTags [] sd) = durPts req sd := rfl
    have e5 : ratingTerm (withTags [] sd) = ratingTerm sd := rfl
    have e6 : (withTags [] sd).license = sd.license := rfl
    rw [e1, e2, e3, e4, e5, e6]
    have hg : countKwMatches (genreKws req) (lname sd) (ltags sd) (ldesc sd)
        = countKwMatches (genreKws req) (lname sd) [] (ldesc sd) :=
      countKwMatches_congr _ _ _ _ _ (fun kw hk =>
        kwMatch_no_tags kw (lname sd) (ldesc sd) (ltags sd)
          (h kw (List.mem_append.mpr (Or.inl (List.mem_append.mpr (Or.inl hk))))))
    have hm : countKwMatches (moodKws req) (lname sd) (ltags sd) (ldesc sd)
        = countKwMatches (moodKws req) (lname sd) [] (ldesc sd) :=
      countKwMatches_congr _ _ _ _ _ (fun kw hk =>
        kwMatch_no_tags kw (lname sd) (ldesc sd) (ltags sd)
          (h kw (List.mem_append.mpr (Or.inl (List.mem_append.mpr (Or.inr hk))))))
    have hi : countKwMatches (instKws req) (lname sd) (ltags sd) (ldesc sd)
        = countKwMatches (instKws req) (lname sd) [] (ldesc sd) :=
      countKwMatches_congr _ _ _ _ _ (fun kw hk =>
        kwMatch_no_tags kw (lname sd) (ldesc sd) (ltags sd)
          (h kw (List.mem_append.mpr (Or.inr hk))))
    rw [hg, hm, hi]
  · have h1 : sfxNamePts (splitWs (lowerStr ("glass".toList))) (lname sdC10) = 0 := by decide
    have h2 : sfxTagCount (splitWs (lowerStr ("glass".toList))) (ltags sdC10) = 1 := by decide
    have h3 : sfxDescCount (splitWs (lowerStr ("glass".toList))) (ldesc sdC10) = 0 := by decide
    rw [sfxScore, h1, h2, h3]
    norm_num [sdC10, qmin_eq]
  · have h1 : sfxNamePts (splitWs (lowerStr ("glass".toList))) (lname (withTags [] sdC10)) = 0 := by
      decide
    have h2 : sfxTagCount (splitWs (lowerStr ("glass".toList))) (ltags (withTags [] sdC10)) = 0 := by
      decide
    have h3 : sfxDescCount (splitWs (lowerStr ("glass".toList))) (ldesc (withTags [] sdC10)) = 0 := by
      decide
    rw [sfxScore, h1, h2, h3]
    norm_num [withTags, sdC10, qmin_eq]

theorem tag_matching_asymmetry_witness :
    (∀ kw ∈ allMusicKws reqC10m, (ltags sdC10).contains kw = false)
    ∧ musicScore reqC10m sdC10 = musicScore reqC10m (withTags [] sdC10) :=
  ⟨by decide, tag_matching_asymmetry.1 reqC10m sdC10 (by decide)⟩
